import Mathlib

/-!
Verification of the SmartClip clipboard-history manager (src/main.py).

The development shallowly embeds the clipboard history engine and the
hotkey-driven recall protocol of `SmartClipUI` (src/main.py):

* `Entry` models a clipboard item: the `QListWidgetItem` display text together
  with its `UserRole` data `{"text": ..., "timestamp": ...}`.
* `recordEntry` embeds `SmartClipUI.on_clipboard_changed` (main.py 907-940) at
  the level of the history list, returning the new list together with a flag
  telling whether `save_clipboard_history` was invoked.
* `AppState` models the mutable fields of `SmartClipUI` that the recall
  protocol touches, together with the system clipboard content and a flag for
  the scheduled paste simulation.
* `show_overlay`, `cycle_next_item`, `handle_swap_hotkey`,
  `paste_and_close_overlay` and `overlay_escape` embed the corresponding
  methods (main.py 1186-1273 and `ClipboardOverlay.keyPressEvent` 526-528).
* `update_shortcuts` and `open_settings_apply` embed
  `SmartClipUI.update_shortcuts` (1130-1179) and the accepted branch of
  `SmartClipUI.open_settings` (1300-1331); the external `keyboard` library's
  registration is abstracted by a validity predicate, and exceptions it raises
  are modelled with `Except`, the error value carrying the object state at the
  moment the exception escapes (Python mutates fields in place).
-/

/-- Clipboard entry: display text plus the stored timestamp string, as kept in
the `UserRole` data of each list item. -/
structure Entry where
  text : String
  timestamp : String
deriving DecidableEq, Repr

/-- Overlay model (`ClipboardOverlay`): the frozen list of items passed at
construction (`populate_list`) plus Qt's current row, which is `-1` when the
list has no current item and otherwise the selected index. -/
structure Overlay where
  items : List Entry
  currentRow : Int
deriving DecidableEq, Repr

/-- Mutable state of `SmartClipUI` relevant to the history engine and the
recall protocol, plus the system clipboard text and whether a paste
simulation has been scheduled (`QTimer.singleShot(100, self.simulate_paste)`).
An overlay of `none` means no overlay is visible (`self.overlay is None or not
self.overlay.isVisible()`). -/
structure AppState where
  history : List Entry
  clipboard : String
  maxStackSize : Nat
  swapHotkey : String
  typeHotkey : String
  runAtStartup : Bool
  showNotifs : Bool
  darkMode : Bool
  swapModifier : String
  swapKey : String
  swapHook : Option String
  typeHook : Option String
  ctrlReleaseHook : Bool
  overlay : Option Overlay
  pasteTriggered : Bool
deriving DecidableEq, Repr

/-- Guard of `on_clipboard_changed` (main.py 910): `if text and text.strip():`
proceeds only when the text is non-empty and not whitespace-only, i.e. it is
skipped exactly when every character is whitespace (for the empty string the
check on the empty character list is vacuously true). -/
def isBlank (text : String) : Bool :=
  text.data.all Char.isWhitespace

/-- Helper for the reorder branch of `on_clipboard_changed` (main.py 917-925):
scan the list from the front for the first item whose text equals `text`;
if found, return that item (`takeItem(i)`) together with the remaining list.
Reinserting the item at the front keeps its original `UserRole` data, hence
its original timestamp. -/
def extractFirst (text : String) : List Entry → Option (Entry × List Entry)
  | [] => none
  | e :: rest =>
    if e.text = text then some (e, rest)
    else
      match extractFirst text rest with
      | some (f, rest2) => some (f, e :: rest2)
      | none => none

/-- Trim step of `on_clipboard_changed` (main.py 936-937): the loop
`while count > max_stack_size: takeItem(count - 1)` removes items from the
tail until the length is at most `maxSize`, which keeps exactly the first
`maxSize` items (and leaves a shorter list unchanged). -/
def trimToMaxSize (maxSize : Nat) (l : List Entry) : List Entry :=
  l.take maxSize

/-- Embedding of `SmartClipUI.on_clipboard_changed` (main.py 907-940) at the
level of the history list. Given the configured `max_stack_size`, the current
time string `now` (`datetime.now().strftime(...)`), the clipboard `text` and
the history, it returns the new history and whether `save_clipboard_history`
was called. The guard `if text and text.strip():` rejects empty and
whitespace-only text; an entry already at position 0 causes an early return
with no save; an entry found elsewhere is taken and reinserted at the front
(keeping its timestamp) and saved; otherwise a fresh entry with timestamp
`now` is inserted at the front, the tail is trimmed, and the list is saved. -/
def recordEntry (maxStackSize : Nat) (now text : String) (hist : List Entry) :
    List Entry × Bool :=
  if isBlank text then (hist, false)
  else if hist.head?.map Entry.text = some text then (hist, false)
  else
    match extractFirst text hist with
    | some (e, rest) => (e :: rest, true)
    | none =>
        (trimToMaxSize maxStackSize ({ text := text, timestamp := now } :: hist), true)

/-- State-level wrapper of `on_clipboard_changed`: reads the system clipboard
(`self.clipboard.text()`) and updates the history list. -/
def on_clipboard_changed (now : String) (st : AppState) : AppState :=
  { st with history := (recordEntry st.maxStackSize now st.clipboard st.history).1 }

/-- Embedding of `ClipboardStorage.save_history` (main.py 361-369): the
persisted record is `items[: self.max_size]`. -/
def save_history (maxSize : Nat) (items : List Entry) : List Entry :=
  items.take maxSize

/-- Qt's `currentItem()` on the overlay list: `none` when `currentRow` is `-1`
(no current item, as on an empty list), otherwise the item at `currentRow`. -/
def Overlay.currentItem (ov : Overlay) : Option Entry :=
  if ov.currentRow < 0 then none else ov.items[ov.currentRow.toNat]?

/-- Embedding of `SmartClipUI.show_overlay` (main.py 1202-1226): any existing
overlay is closed and replaced by a fresh one whose item list is a snapshot of
the current history; `ClipboardOverlay.populate_list` (498-513) selects row 0
when the list is non-empty (otherwise Qt leaves the current row at `-1`);
`start_modifier_release_listener` (1228-1245) then replaces any existing
release hook, leaving the release watch armed. -/
def show_overlay (st : AppState) : AppState :=
  { st with
    overlay := some
      { items := st.history
        currentRow := if 0 < st.history.length then 0 else -1 }
    ctrlReleaseHook := true }

/-- Embedding of `SmartClipUI.cycle_next_item` (main.py 1195-1200). With no
visible overlay nothing happens. Otherwise the next row is computed by the
Python expression `(current_row + 1) % self.overlay.list_widget.count()`,
which raises `ZeroDivisionError` when the overlay list is empty; for a
non-empty list `%` is Python's (equivalently `Int.emod`'s) nonnegative
remainder. -/
def cycle_next_item (st : AppState) : Except String AppState :=
  match st.overlay with
  | none => Except.ok st
  | some ov =>
    if ov.items.length = 0 then Except.error "ZeroDivisionError"
    else
      Except.ok
        { st with
          overlay := some
            { ov with currentRow := (ov.currentRow + 1) % (ov.items.length : Int) } }

/-- Embedding of `SmartClipUI.handle_swap_hotkey` (main.py 1186-1193): the
first press (no visible overlay) opens the overlay, a press while the overlay
is open cycles the selection. -/
def handle_swap_hotkey (st : AppState) : Except String AppState :=
  match st.overlay with
  | none => Except.ok (show_overlay st)
  | some _ => cycle_next_item st

/-- Iterated delivery of `SwapPressed` events (`handle_swap_hotkey`), stopping
at the first raised exception. -/
def iterateSwap : Nat → AppState → Except String AppState
  | 0, st => Except.ok st
  | k + 1, st =>
    match handle_swap_hotkey st with
    | Except.ok st2 => iterateSwap k st2
    | Except.error e => Except.error e

/-- Embedding of `SmartClipUI.paste_and_close_overlay` (main.py 1251-1273),
run on `ModifierReleased`. With a visible overlay and a current item, the
item's text is written to the system clipboard, the overlay is closed, the
release hook is removed, and `simulate_paste` is scheduled; with no visible
overlay, or with no current item, nothing happens at all. -/
def paste_and_close_overlay (st : AppState) : AppState :=
  match st.overlay with
  | none => st
  | some ov =>
    match ov.currentItem with
    | none => st
    | some e =>
      { st with
        clipboard := e.text
        overlay := none
        ctrlReleaseHook := false
        pasteTriggered := true }

/-- Embedding of the Escape branch of `ClipboardOverlay.keyPressEvent`
(main.py 526-528): `self.close()` closes the overlay window and nothing else —
the parent's `ctrl_release_hook` is not unhooked and the clipboard is not
written. -/
def overlay_escape (st : AppState) : AppState :=
  match st.overlay with
  | none => st
  | some _ => { st with overlay := none }

/-- Python `str.strip()`: drop leading and trailing whitespace characters. -/
def pyStrip (s : String) : String :=
  String.mk (((s.data.dropWhile Char.isWhitespace).reverse.dropWhile
    Char.isWhitespace).reverse)

/-- Python `str.lower()`: lower-case every character. -/
def pyLower (s : String) : String :=
  String.mk (s.data.map Char.toLower)

/-- Python `str.replace(" ", "")`: remove every space character. -/
def pyRemoveSpaces (s : String) : String :=
  String.mk (s.data.filter (fun c => c ≠ ' '))

/-- Python `str.split("+")` on the character list: splitting the empty string
gives `[""]`, and a trailing `"+"` produces a trailing empty part (so
`"ctrl+".split("+") == ["ctrl", ""]`). -/
def splitPlusChars : List Char → List (List Char)
  | [] => [[]]
  | c :: rest =>
    let r := splitPlusChars rest
    if c = '+' then [] :: r
    else
      match r with
      | [] => [[c]]
      | h :: t => (c :: h) :: t

/-- Python `combo.split("+")`. -/
def pySplitPlus (s : String) : List String :=
  (splitPlusChars s.data).map String.mk

/-- Python `"+".join(parts)`. -/
def pyJoinPlus (parts : List String) : String :=
  String.mk (List.intercalate ['+'] (parts.map String.data))

/-- Normalization used by `update_shortcuts` and `open_settings`
(main.py 1157, 1306-1311): `combo.replace(" ", "").lower()`. -/
def normalizeCombo (s : String) : String :=
  pyLower (pyRemoveSpaces s)

/-- Model of the external `keyboard` library's combination parser:
`keyboard.add_hotkey` raises `ValueError` when a `+`-separated step of the
combination is the empty string (e.g. `"ctrl+"`), and registers the hotkey
otherwise. `update_shortcuts` is stated over an arbitrary validity predicate
`valid`; this concrete one is used for witnesses and counterexamples. -/
def keyboardComboValid (combo : String) : Bool :=
  (pySplitPlus combo).all (fun p => p ≠ "")

/-- Embedding of `SmartClipUI.update_shortcuts` (main.py 1130-1179). The
existing swap/type hotkey hooks and the release hook are removed first; then
the swap binding (when non-empty and not "none") is normalized, parsed into
`swap_modifier`/`swap_key`, and registered; then the type binding likewise.
`valid combo` tells whether `keyboard.add_hotkey(combo, ...)` succeeds; a
registration failure is an uncaught exception, modelled as `Except.error`
carrying the object state at the moment the exception escapes (Python has
already mutated the fields assigned before the raise). -/
def update_shortcuts (valid : String → Bool) (st0 : AppState) :
    Except AppState AppState :=
  let st1 := { st0 with swapHook := none, typeHook := none, ctrlReleaseHook := false }
  let afterSwap : Except AppState AppState :=
    if st1.swapHotkey ≠ "" ∧ pyLower st1.swapHotkey ≠ "none" then
      let normalized := normalizeCombo st1.swapHotkey
      let parts := pySplitPlus normalized
      let st2 :=
        if 2 ≤ parts.length then
          { st1 with
            swapModifier := pyJoinPlus parts.dropLast
            swapKey := (parts.getLast?).getD "" }
        else { st1 with swapModifier := "", swapKey := normalized }
      if valid normalized then Except.ok { st2 with swapHook := some normalized }
      else Except.error st2
    else Except.ok st1
  match afterSwap with
  | Except.error e => Except.error e
  | Except.ok st3 =>
    if st3.typeHotkey ≠ "" ∧ pyLower st3.typeHotkey ≠ "none" then
      let normalized := normalizeCombo st3.typeHotkey
      if valid normalized then Except.ok { st3 with typeHook := some normalized }
      else Except.error st3
    else Except.ok st3

/-- Dialog fields read back by `open_settings` when the user accepts
(main.py 1300-1316). -/
structure DialogResult where
  swapText : String
  typeText : String
  startup : Bool
  notify : Bool
  stackSize : Nat
  darkMode : Bool
deriving DecidableEq, Repr

/-- Embedding of the accepted branch of `SmartClipUI.open_settings`
(main.py 1300-1331): the hotkey strings are normalized (or cleared when
"none"), the flags and `max_stack_size` are updated, then `update_shortcuts`
runs. The history list widget is never touched on this path; the theme,
startup-registration and settings-save steps have no effect on the modelled
state. -/
def open_settings_apply (valid : String → Bool) (d : DialogResult)
    (st : AppState) : Except AppState AppState :=
  let newSwap := pyStrip d.swapText
  let newType := pyStrip d.typeText
  let st1 :=
    { st with
      swapHotkey := if pyLower newSwap ≠ "none" then normalizeCombo newSwap else ""
      typeHotkey := if pyLower newType ≠ "none" then normalizeCombo newType else ""
      runAtStartup := d.startup
      showNotifs := d.notify
      maxStackSize := d.stackSize
      darkMode := d.darkMode }
  update_shortcuts valid st1

/-- History list after an `update_shortcuts` / `open_settings_apply` step,
whether or not a registration exception escaped. -/
def historyAfter (r : Except AppState AppState) : List Entry :=
  match r with
  | Except.ok st => st.history
  | Except.error st => st.history

/-- Configured capacity after an `update_shortcuts` / `open_settings_apply`
step, whether or not a registration exception escaped. -/
def maxAfter (r : Except AppState AppState) : Nat :=
  match r with
  | Except.ok st => st.maxStackSize
  | Except.error st => st.maxStackSize

/-- History invariant claimed by the specification for the history buffer:
no two entries have equal text, and the length is bounded by the configured
capacity. -/
def Invariant (cap : Nat) (h : List Entry) : Prop :=
  (h.map Entry.text).Nodup ∧ h.length ≤ cap

instance (cap : Nat) (h : List Entry) : Decidable (Invariant cap h) := by
  unfold Invariant; infer_instance

/-- Fold a sequence of `(now, text)` clipboard captures through
`recordEntry` with a fixed configured capacity. -/
def runRecords (cap : Nat) (calls : List (String × String)) (h : List Entry) :
    List Entry :=
  calls.foldl (fun acc c => (recordEntry cap c.1 c.2 acc).1) h

-- Sanity checks of the embedding on concrete inputs.
example : recordEntry 1000 "t1" "B" [] = ([⟨"B", "t1"⟩], true) := by decide
example : recordEntry 1000 "t2" "  " [⟨"B", "t1"⟩] = ([⟨"B", "t1"⟩], false) := by decide
example :
    recordEntry 1000 "t3" "B" [⟨"A", "t2"⟩, ⟨"B", "t1"⟩] =
      ([⟨"B", "t1"⟩, ⟨"A", "t2"⟩], true) := by decide
example :
    recordEntry 1000 "t3" "A" [⟨"A", "t2"⟩, ⟨"B", "t1"⟩] =
      ([⟨"A", "t2"⟩, ⟨"B", "t1"⟩], false) := by decide
example :
    recordEntry 2 "t3" "C" [⟨"A", "t2"⟩, ⟨"B", "t1"⟩] =
      ([⟨"C", "t3"⟩, ⟨"A", "t2"⟩], true) := by decide
example : normalizeCombo "Ctrl + Q" = "ctrl+q" := by decide
example : pySplitPlus "ctrl+" = ["ctrl", ""] := by decide
example : keyboardComboValid "ctrl+q" = true := by decide
example : keyboardComboValid "ctrl+" = false := by decide
example : pyStrip "  Ctrl + Q " = "Ctrl + Q" := by decide
example : pyJoinPlus ["ctrl", "shift"] = "ctrl+shift" := by decide

/-! ### Helper lemmas about the reorder scan -/

theorem extractFirst_some_text {t : String} :
    ∀ {h : List Entry} {f : Entry} {rest : List Entry},
      extractFirst t h = some (f, rest) → f.text = t := by
  intro h
  induction h with
  | nil => intro f rest hx; simp [extractFirst] at hx
  | cons e es ih =>
    intro f rest hx
    by_cases he : e.text = t
    · simp only [extractFirst, if_pos he, Option.some.injEq, Prod.mk.injEq] at hx
      rw [← hx.1]; exact he
    · cases hxe : extractFirst t es with
      | none => simp [extractFirst, he, hxe] at hx
      | some p =>
        obtain ⟨f2, rest2⟩ := p
        simp only [extractFirst, if_neg he, hxe, Option.some.injEq,
          Prod.mk.injEq] at hx
        rw [← hx.1]; exact ih hxe

theorem extractFirst_perm {t : String} :
    ∀ {h : List Entry} {f : Entry} {rest : List Entry},
      extractFirst t h = some (f, rest) → h.Perm (f :: rest) := by
  intro h
  induction h with
  | nil => intro f rest hx; simp [extractFirst] at hx
  | cons e es ih =>
    intro f rest hx
    by_cases he : e.text = t
    · simp only [extractFirst, if_pos he, Option.some.injEq, Prod.mk.injEq] at hx
      rw [← hx.1, ← hx.2]
    · cases hxe : extractFirst t es with
      | none => simp [extractFirst, he, hxe] at hx
      | some p =>
        obtain ⟨f2, rest2⟩ := p
        simp only [extractFirst, if_neg he, hxe, Option.some.injEq,
          Prod.mk.injEq] at hx
        rw [← hx.1, ← hx.2]
        exact ((ih hxe).cons e).trans (List.Perm.swap f2 e rest2)

theorem extractFirst_eq_none {t : String} :
    ∀ {h : List Entry}, extractFirst t h = none ↔ ∀ e ∈ h, e.text ≠ t := by
  intro h
  induction h with
  | nil => simp [extractFirst]
  | cons e es ih =>
    by_cases he : e.text = t
    · constructor
      · intro hx; rw [extractFirst, if_pos he] at hx; cases hx
      · intro hall; exact absurd he (hall e (List.mem_cons_self e es))
    · constructor
      · intro hx x hxmem
        rcases List.mem_cons.mp hxmem with h1 | hmem
        · rw [h1]; exact he
        · have hnone : extractFirst t es = none := by
            rw [extractFirst, if_neg he] at hx
            cases hxe : extractFirst t es with
            | none => rfl
            | some p =>
              obtain ⟨f2, rest2⟩ := p
              rw [hxe] at hx
              simp at hx
          exact (ih.mp hnone) x hmem
      · intro hall
        rw [extractFirst, if_neg he]
        cases hxe : extractFirst t es with
        | none => rfl
        | some p =>
          obtain ⟨f2, rest2⟩ := p
          exfalso
          have hf2 : f2.text = t := extractFirst_some_text hxe
          have hmem : f2 ∈ es :=
            (extractFirst_perm hxe).mem_iff.mpr (List.mem_cons_self _ _)
          exact hall f2 (List.mem_cons_of_mem e hmem) hf2

/-! ### Helper lemmas about recordEntry -/

/-- Recording a text that already occurs in the history permutes the history:
either the early-return no-op fires or the existing item is taken and
reinserted at the front; no entry is created, dropped or modified (in
particular every timestamp is preserved). -/
theorem recordEntry_perm_of_mem (cap : Nat) (now t : String) (h : List Entry)
    (e : Entry) (hmem : e ∈ h) (het : e.text = t) :
    ((recordEntry cap now t h).1).Perm h := by
  unfold recordEntry
  by_cases hb : isBlank t
  · simp [hb]
  · rw [if_neg (by simp [hb])]
    by_cases htop : h.head?.map Entry.text = some t
    · simp [htop]
    · rw [if_neg htop]
      cases hx : extractFirst t h with
      | none =>
        exact absurd het (extractFirst_eq_none.mp hx e hmem)
      | some p =>
        obtain ⟨f, rest⟩ := p
        exact (extractFirst_perm hx).symm

/-- In the same situation, the recorded text ends up at the front. -/
theorem recordEntry_head_of_mem (cap : Nat) (now t : String) (h : List Entry)
    (e : Entry) (hmem : e ∈ h) (het : e.text = t) (hb : isBlank t = false) :
    ((recordEntry cap now t h).1).head?.map Entry.text = some t := by
  unfold recordEntry
  rw [if_neg (by simp [hb])]
  by_cases htop : h.head?.map Entry.text = some t
  · simp [htop]
  · rw [if_neg htop]
    cases hx : extractFirst t h with
    | none =>
      exact absurd het (extractFirst_eq_none.mp hx e hmem)
    | some p =>
      obtain ⟨f, rest⟩ := p
      simp [extractFirst_some_text hx]

/-- Each `recordEntry` call preserves the history invariant: texts stay
pairwise distinct and the length stays within the configured capacity. -/
theorem recordEntry_preserves_invariant (cap : Nat) (now t : String)
    (h : List Entry) (hinv : Invariant cap h) :
    Invariant cap (recordEntry cap now t h).1 := by
  obtain ⟨hnodup, hlen⟩ := hinv
  unfold recordEntry
  by_cases hb : isBlank t
  · simpa [hb] using ⟨hnodup, hlen⟩
  · rw [if_neg (by simp [hb])]
    by_cases htop : h.head?.map Entry.text = some t
    · simpa [htop] using ⟨hnodup, hlen⟩
    · rw [if_neg htop]
      cases hx : extractFirst t h with
      | none =>
        simp only [trimToMaxSize]
        constructor
        · have hnotmem : t ∉ h.map Entry.text := by
            intro hcontra
            obtain ⟨e, hemem, hetext⟩ := List.mem_map.mp hcontra
            exact extractFirst_eq_none.mp hx e hemem hetext
          have hcons : ((({ text := t, timestamp := now } : Entry) :: h).map
              Entry.text).Nodup := by
            simp only [List.map_cons]
            exact List.nodup_cons.mpr ⟨hnotmem, hnodup⟩
          have hsub : (List.take cap (({ text := t, timestamp := now } : Entry) ::
              h)).Sublist (({ text := t, timestamp := now } : Entry) :: h) :=
            List.take_sublist cap _
          exact (hsub.map Entry.text).nodup hcons
        · simp
      | some p =>
        obtain ⟨f, rest⟩ := p
        have hperm : h.Perm (f :: rest) := extractFirst_perm hx
        constructor
        · exact (hperm.map Entry.text).nodup hnodup
        · simpa [hperm.length_eq] using hlen

/-- C3: for every sequence of `recordEntry` calls with a fixed configured
capacity, starting from any history satisfying the invariant (e.g. the empty
history), the history after every call contains no two entries with equal
text and its length never exceeds the capacity (every prefix of the call
sequence is itself such a sequence, so the invariant holds after each
individual call). -/
theorem runRecords_invariant (cap : Nat) (calls : List (String × String))
    (h0 : List Entry) (hinv : Invariant cap h0) :
    Invariant cap (runRecords cap calls h0) := by
  induction calls generalizing h0 with
  | nil => simpa [runRecords] using hinv
  | cons c cs ih =>
    simp only [runRecords, List.foldl_cons]
    exact ih ((recordEntry cap c.1 c.2 h0).1)
      (recordEntry_preserves_invariant cap c.1 c.2 h0 hinv)

theorem runRecords_invariant_witness :
    Invariant 2 ([] : List Entry) ∧
      Invariant 2 (runRecords 2 [("t1", "B"), ("t2", "A"), ("t3", "B")] []) :=
  ⟨by decide, runRecords_invariant 2 [("t1", "B"), ("t2", "A"), ("t3", "B")] []
    (by decide)⟩

/-- C9: recording a text that is already the entry at position 0 returns the
history unchanged with no persistence save (the flag returned by
`recordEntry` is `false`); consequently recording the same text twice in a
row is idempotent — the second call changes nothing and saves nothing. -/
theorem record_top_noop_idempotent (cap : Nat) (now now2 t t2 : String)
    (h h2 : List Entry) (e : Entry) (hcap : 1 ≤ cap)
    (htop : h.head? = some e) (hetext : e.text = t) :
    recordEntry cap now t h = (h, false) ∧
    recordEntry cap now2 t2 (recordEntry cap now t2 h2).1 =
      ((recordEntry cap now t2 h2).1, false) := by
  constructor
  · unfold recordEntry
    by_cases hb : isBlank t
    · simp [hb]
    · rw [if_neg (by simp [hb]), if_pos (by simp [htop, hetext])]
  · by_cases hb : isBlank t2
    · simp [recordEntry, hb]
    · have hhead : ((recordEntry cap now t2 h2).1).head?.map Entry.text =
          some t2 := by
        unfold recordEntry
        rw [if_neg (by simp [hb])]
        by_cases htop2 : h2.head?.map Entry.text = some t2
        · simp [htop2]
        · rw [if_neg htop2]
          cases hx : extractFirst t2 h2 with
          | none =>
            obtain ⟨cap', rfl⟩ : ∃ cap', cap = cap' + 1 :=
              ⟨cap - 1, by omega⟩
            simp [trimToMaxSize]
          | some p =>
            obtain ⟨f, rest⟩ := p
            simp [extractFirst_some_text hx]
      conv_lhs => rw [recordEntry]
      rw [if_neg (by simp [hb]), if_pos hhead]

theorem record_top_noop_idempotent_witness :
    (1 ≤ 5 ∧ ([⟨"B", "t1"⟩] : List Entry).head? = some ⟨"B", "t1"⟩ ∧
      (⟨"B", "t1"⟩ : Entry).text = "B") ∧
    (recordEntry 5 "t9" "B" [⟨"B", "t1"⟩] = ([⟨"B", "t1"⟩], false) ∧
      recordEntry 5 "t8" "A" (recordEntry 5 "t9" "A" [⟨"B", "t1"⟩]).1 =
        ((recordEntry 5 "t9" "A" [⟨"B", "t1"⟩]).1, false)) :=
  ⟨⟨by decide, by decide, by decide⟩,
    record_top_noop_idempotent 5 "t9" "t8" "B" "A" [⟨"B", "t1"⟩] [⟨"B", "t1"⟩]
      ⟨"B", "t1"⟩ (by decide) (by decide) (by decide)⟩

/-! ### Sample states for witnesses and counterexamples -/

def entryB : Entry := { text := "B", timestamp := "t1" }

def entryA : Entry := { text := "A", timestamp := "t2" }

/-- Application state with two history entries and an open overlay whose
snapshot is the current history, as produced by `show_overlay`; the release
watch is armed. -/
def baseState : AppState :=
  { history := [entryA, entryB]
    clipboard := ""
    maxStackSize := 1000
    swapHotkey := "ctrl+q"
    typeHotkey := ""
    runAtStartup := false
    showNotifs := true
    darkMode := false
    swapModifier := "ctrl"
    swapKey := "q"
    swapHook := some "ctrl+q"
    typeHook := none
    ctrlReleaseHook := true
    overlay := some { items := [entryA, entryB], currentRow := 0 }
    pasteTriggered := false }

/-- Same state with no overlay open and the release watch disarmed. -/
def closedState : AppState :=
  { baseState with overlay := none, ctrlReleaseHook := false }

/-- State whose history is empty and whose overlay is open over the empty
snapshot (Qt keeps the current row at `-1` on an empty list). -/
def emptyOverlayState : AppState :=
  { baseState with history := [], overlay := some { items := [], currentRow := -1 } }

/-! ### Helper equations for the session transitions -/

/-- Commit equation: with a visible overlay and a current item,
`paste_and_close_overlay` writes the item text to the clipboard, closes the
overlay, removes the release hook and schedules the paste simulation. -/
theorem paste_commit_eq (st : AppState) (ov : Overlay) (e : Entry)
    (hov : st.overlay = some ov) (hcur : ov.currentItem = some e) :
    paste_and_close_overlay st =
      { st with
        clipboard := e.text
        overlay := none
        ctrlReleaseHook := false
        pasteTriggered := true } := by
  unfold paste_and_close_overlay
  rw [hov]
  dsimp only
  rw [hcur]

/-- Cancel equation: Escape closes the overlay window and changes nothing
else on the modelled state. -/
theorem overlay_escape_eq (st : AppState) (ov : Overlay)
    (hov : st.overlay = some ov) :
    overlay_escape st = { st with overlay := none } := by
  unfold overlay_escape
  rw [hov]

/-- With a visible overlay but no current item, `paste_and_close_overlay`
does nothing. -/
theorem paste_noop_of_no_current (st : AppState) (ov : Overlay)
    (hov : st.overlay = some ov) (hcur : ov.currentItem = none) :
    paste_and_close_overlay st = st := by
  unfold paste_and_close_overlay
  rw [hov]
  dsimp only
  rw [hcur]

/-- An empty overlay snapshot has no current item. -/
theorem currentItem_empty (ov : Overlay) (hempty : ov.items = []) :
    ov.currentItem = none := by
  unfold Overlay.currentItem
  rw [hempty]
  by_cases hneg : ov.currentRow < 0
  · rw [if_pos hneg]
  · rw [if_neg hneg]; simp

/-- The current item of an overlay belongs to its snapshot. -/
theorem currentItem_mem (ov : Overlay) (e : Entry)
    (hcur : ov.currentItem = some e) : e ∈ ov.items := by
  unfold Overlay.currentItem at hcur
  by_cases hneg : ov.currentRow < 0
  · rw [if_pos hneg] at hcur; cases hcur
  · rw [if_neg hneg] at hcur
    exact List.getElem?_mem hcur

/-! ### Claim theorems -/

/-- C1: if an entry with identical text already exists anywhere in the
buffer, `recordEntry` relocates it to the front without updating its
timestamp and without creating a duplicate — the resulting buffer is a
permutation of the old one (so every entry, in particular the relocated one,
keeps its original capture timestamp, and the length is unchanged) and the
recorded text is at the front; recording "B", "A", "B" from the empty buffer
yields exactly `["B", "A"]` of length 2 with "B" keeping its original
timestamp `t1`; and the buffer entry just written back by a commit
(`paste_and_close_overlay` followed by `on_clipboard_changed`) folds into
this same reorder path: the history afterwards is a permutation of the
history before, with no duplicate created. -/
theorem recordEntry_folds_existing (cap : Nat) (now now2 t : String)
    (h : List Entry) (e : Entry) (hmem : e ∈ h) (het : e.text = t)
    (hb : isBlank t = false) (st : AppState) (ov : Overlay) (ecur : Entry)
    (hov : st.overlay = some ov) (hitems : ov.items = st.history)
    (hcur : ov.currentItem = some ecur) :
    (((recordEntry cap now t h).1).Perm h ∧
      ((recordEntry cap now t h).1).head?.map Entry.text = some t) ∧
    recordEntry 1000 "t3" "B"
        (recordEntry 1000 "t2" "A" (recordEntry 1000 "t1" "B" []).1).1 =
      ([⟨"B", "t1"⟩, ⟨"A", "t2"⟩], true) ∧
    ((on_clipboard_changed now2 (paste_and_close_overlay st)).history).Perm
      st.history := by
  refine ⟨⟨recordEntry_perm_of_mem cap now t h e hmem het,
    recordEntry_head_of_mem cap now t h e hmem het hb⟩, by decide, ?_⟩
  have hecur : ecur ∈ st.history := hitems ▸ currentItem_mem ov ecur hcur
  rw [paste_commit_eq st ov ecur hov hcur]
  exact recordEntry_perm_of_mem st.maxStackSize now2 ecur.text st.history
    ecur hecur rfl

theorem recordEntry_folds_existing_witness :
    (entryB ∈ [entryA, entryB] ∧ entryB.text = "B" ∧ isBlank "B" = false ∧
      baseState.overlay = some { items := [entryA, entryB], currentRow := 0 } ∧
      Overlay.items { items := [entryA, entryB], currentRow := 0 } =
        baseState.history ∧
      Overlay.currentItem { items := [entryA, entryB], currentRow := 0 } =
        some entryA) ∧
    ((((recordEntry 7 "t7" "B" [entryA, entryB]).1).Perm [entryA, entryB] ∧
      ((recordEntry 7 "t7" "B" [entryA, entryB]).1).head?.map Entry.text =
        some "B") ∧
    recordEntry 1000 "t3" "B"
        (recordEntry 1000 "t2" "A" (recordEntry 1000 "t1" "B" []).1).1 =
      ([⟨"B", "t1"⟩, ⟨"A", "t2"⟩], true) ∧
    ((on_clipboard_changed "t8" (paste_and_close_overlay baseState)).history).Perm
      baseState.history) :=
  ⟨⟨by decide, by decide, by decide, rfl, rfl, by decide⟩,
    recordEntry_folds_existing 7 "t7" "t8" "B" [entryA, entryB] entryB
      (by decide) (by decide) (by decide) baseState
      { items := [entryA, entryB], currentRow := 0 } entryA rfl rfl (by decide)⟩

/-- C2: with an open overlay that has a current item (non-empty snapshot),
a `ModifierReleased` event (`paste_and_close_overlay`) writes that item's
text to the system clipboard, disarms the release watch, leaves the session
closed, and triggers the external paste-simulation action; an explicit
cancel (Escape) leaves the clipboard (and everything else but the overlay)
unchanged and leaves the session closed. -/
theorem commit_writes_cancel_preserves (st : AppState) (ov : Overlay)
    (e : Entry) (hov : st.overlay = some ov) (hcur : ov.currentItem = some e) :
    paste_and_close_overlay st =
      { st with
        clipboard := e.text
        overlay := none
        ctrlReleaseHook := false
        pasteTriggered := true } ∧
    overlay_escape st = { st with overlay := none } :=
  ⟨paste_commit_eq st ov e hov hcur, overlay_escape_eq st ov hov⟩

theorem commit_writes_cancel_preserves_witness :
    (baseState.overlay = some { items := [entryA, entryB], currentRow := 0 } ∧
      Overlay.currentItem { items := [entryA, entryB], currentRow := 0 } =
        some entryA) ∧
    (paste_and_close_overlay baseState =
      { baseState with
        clipboard := entryA.text
        overlay := none
        ctrlReleaseHook := false
        pasteTriggered := true } ∧
    overlay_escape baseState = { baseState with overlay := none }) :=
  ⟨⟨rfl, by decide⟩,
    commit_writes_cancel_preserves baseState
      { items := [entryA, entryB], currentRow := 0 } entryA rfl (by decide)⟩

/-- C10: a `ModifierReleased` event delivered while the overlay is open over
an empty snapshot does nothing at all: the state is unchanged, so no
clipboard write occurs, the overlay stays open, and the release watch stays
armed. -/
theorem commit_empty_snapshot_noop (st : AppState) (ov : Overlay)
    (hov : st.overlay = some ov) (hempty : ov.items = []) :
    paste_and_close_overlay st = st ∧
    (paste_and_close_overlay st).clipboard = st.clipboard ∧
    (paste_and_close_overlay st).overlay = st.overlay ∧
    (paste_and_close_overlay st).ctrlReleaseHook = st.ctrlReleaseHook := by
  have heq : paste_and_close_overlay st = st :=
    paste_noop_of_no_current st ov hov (currentItem_empty ov hempty)
  exact ⟨heq, by rw [heq], by rw [heq], by rw [heq]⟩

theorem commit_empty_snapshot_noop_witness :
    (emptyOverlayState.overlay = some { items := [], currentRow := -1 } ∧
      Overlay.items { items := [], currentRow := -1 } = []) ∧
    (paste_and_close_overlay emptyOverlayState = emptyOverlayState ∧
      (paste_and_close_overlay emptyOverlayState).clipboard =
        emptyOverlayState.clipboard ∧
      (paste_and_close_overlay emptyOverlayState).overlay =
        emptyOverlayState.overlay ∧
      (paste_and_close_overlay emptyOverlayState).ctrlReleaseHook =
        emptyOverlayState.ctrlReleaseHook) :=
  ⟨⟨rfl, rfl⟩, commit_empty_snapshot_noop emptyOverlayState
    { items := [], currentRow := -1 } rfl rfl⟩

/-- C5 (code evaluation at the failing input): with the overlay open over an
empty snapshot, a `SwapPressed` event is not a no-op — `cycle_next_item`
evaluates `(current_row + 1) % count` with `count = 0`, which raises
`ZeroDivisionError` in Python. -/
theorem swap_on_empty_snapshot_raises :
    handle_swap_hotkey emptyOverlayState =
      Except.error "ZeroDivisionError" := rfl

/-- C6 counterexample: open a recall session from a closed state (which arms
the modifier-release watch) and close it with the explicit cancel (Escape).
The session is closed, yet the release watch is still armed — the Escape
handler only calls `self.close()` and never unhooks `ctrl_release_hook`, so
the claim that closing by either path disarms the watch before returning is
false. -/
theorem escape_leaves_watch_armed :
    (overlay_escape (show_overlay closedState)).overlay = none ∧
    (overlay_escape (show_overlay closedState)).ctrlReleaseHook = true :=
  ⟨rfl, rfl⟩

/-- C6 amended: closing by commit (`ModifierReleased` with a current item)
does disarm the release watch and close the session; but closing by the
explicit cancel (Escape) leaves the release watch exactly as armed as it
was — only the overlay is closed. The stale watch cannot commit into a
closed session: firing `paste_and_close_overlay` with no visible overlay is
a no-op. -/
theorem close_session_watch_behavior (st : AppState) (ov : Overlay)
    (e : Entry) (hov : st.overlay = some ov) (hcur : ov.currentItem = some e)
    (st2 : AppState) (ov2 : Overlay) (hov2 : st2.overlay = some ov2)
    (st3 : AppState) (hclosed : st3.overlay = none) :
    ((paste_and_close_overlay st).ctrlReleaseHook = false ∧
      (paste_and_close_overlay st).overlay = none) ∧
    ((overlay_escape st2).ctrlReleaseHook = st2.ctrlReleaseHook ∧
      (overlay_escape st2).overlay = none) ∧
    paste_and_close_overlay st3 = st3 := by
  refine ⟨⟨?_, ?_⟩, ⟨?_, ?_⟩, ?_⟩
  · rw [paste_commit_eq st ov e hov hcur]
  · rw [paste_commit_eq st ov e hov hcur]
  · rw [overlay_escape_eq st2 ov2 hov2]
  · rw [overlay_escape_eq st2 ov2 hov2]
  · unfold paste_and_close_overlay
    rw [hclosed]

/-- A `SwapPressed` event with the overlay open over a non-empty snapshot
advances the cursor by one modulo the snapshot length. -/
theorem handle_swap_open (st : AppState) (ov : Overlay)
    (hov : st.overlay = some ov) (hne : ov.items.length ≠ 0) :
    handle_swap_hotkey st =
      Except.ok { st with overlay := some { ov with currentRow := (ov.currentRow + 1) % (ov.items.length : Int) } } := by
  unfold handle_swap_hotkey cycle_next_item
  rw [hov]
  dsimp only
  rw [if_neg hne]

/-- Cursor formula for iterated `SwapPressed` events over an open overlay
with an in-range cursor: `k` presses move the cursor from `r` to
`(r + k) mod length`. -/
theorem iterateSwap_formula (k : Nat) :
    ∀ (st : AppState) (ov : Overlay), st.overlay = some ov →
      0 ≤ ov.currentRow → ov.currentRow < (ov.items.length : Int) →
      iterateSwap k st =
        Except.ok { st with overlay := some { ov with currentRow := (ov.currentRow + (k : Int)) % (ov.items.length : Int) } } := by
  induction k with
  | zero =>
    intro st ov hov h0 hlt
    rw [iterateSwap]
    have hr : (ov.currentRow + ((0 : Nat) : Int)) % (ov.items.length : Int) =
        ov.currentRow := by
      simp [Int.emod_eq_of_lt h0 hlt]
    rw [hr]
    rw [show ({ ov with currentRow := ov.currentRow } : Overlay) = ov from rfl,
      ← hov]
  | succ k ih =>
    intro st ov hov h0 hlt
    have hne : ov.items.length ≠ 0 := by
      intro hz
      rw [hz] at hlt
      simp at hlt
      omega
    have hpos : (0 : Int) < (ov.items.length : Int) := by
      exact_mod_cast Nat.pos_of_ne_zero hne
    rw [iterateSwap, handle_swap_open st ov hov hne]
    dsimp only
    rw [ih { st with overlay := some { ov with currentRow := (ov.currentRow + 1) % (ov.items.length : Int) } }
      { ov with currentRow := (ov.currentRow + 1) % (ov.items.length : Int) }
      rfl (Int.emod_nonneg _ (ne_of_gt hpos)) (Int.emod_lt_of_pos _ hpos)]
    dsimp only
    rw [Int.emod_add_emod]
    have harith : ov.currentRow + 1 + (k : Int) =
        ov.currentRow + ((k + 1 : Nat) : Int) := by
      push_cast
      ring
    rw [harith]

/-- C4: opening a recall session over a non-empty history of length `n`
starts the cursor at index 0 (the most recent entry); each `SwapPressed`
event while open advances the cursor to `(cursor + 1) mod n` — after `k`
presses the cursor is at `k mod n`, wrapping from the last entry back to the
first — and exactly `n` presses return the session to its exact starting
state, cursor included. -/
theorem recall_cursor_cycles (st : AppState) (n k : Nat)
    (hn : st.history.length = n) (hpos : 0 < n) :
    (show_overlay st).overlay.map Overlay.currentRow = some 0 ∧
    iterateSwap k (show_overlay st) =
      Except.ok { show_overlay st with overlay := some { items := st.history, currentRow := ((k % n : Nat) : Int) } } ∧
    iterateSwap n (show_overlay st) = Except.ok (show_overlay st) := by
  have hlen : 0 < st.history.length := hn ▸ hpos
  have hov0 : (show_overlay st).overlay =
      some { items := st.history, currentRow := 0 } := by
    unfold show_overlay
    dsimp only
    rw [if_pos hlen]
  have hform : ∀ m : Nat, iterateSwap m (show_overlay st) =
      Except.ok { show_overlay st with overlay := some { items := st.history, currentRow := ((m % n : Nat) : Int) } } := by
    intro m
    have harith : ((0 : Int) + (m : Int)) % ((st.history.length : Nat) : Int) =
        ((m % n : Nat) : Int) := by
      rw [hn]
      push_cast
      rw [zero_add]
    rw [iterateSwap_formula m (show_overlay st)
      { items := st.history, currentRow := 0 } hov0 (le_refl 0)
      (by dsimp only; exact_mod_cast hlen)]
    dsimp only
    rw [harith]
  refine ⟨by rw [hov0]; rfl, hform k, ?_⟩
  rw [hform n]
  dsimp only
  rw [Nat.mod_self]
  simp only [Nat.cast_zero]
  rw [← hov0]

theorem recall_cursor_cycles_witness :
    (closedState.history.length = 2 ∧ 0 < 2) ∧
    ((show_overlay closedState).overlay.map Overlay.currentRow = some 0 ∧
      iterateSwap 3 (show_overlay closedState) =
        Except.ok { show_overlay closedState with overlay := some { items := closedState.history, currentRow := ((3 % 2 : Nat) : Int) } } ∧
      iterateSwap 2 (show_overlay closedState) =
        Except.ok (show_overlay closedState)) :=
  ⟨⟨rfl, by decide⟩, recall_cursor_cycles closedState 2 3 rfl (by decide)⟩

/-- State with the swap binding "ctrl+q" currently registered whose
configured swap hotkey string has been set to the syntactically invalid
combination "ctrl+" (only a modifier, no trigger key). -/
def priorBindingsState : AppState :=
  { closedState with swapHotkey := "ctrl+" }

/-- C7 counterexample: applying the syntactically invalid combination
"ctrl+" does fail (the registration error escapes), but it does NOT leave
the previously active bindings registered: `update_shortcuts` removes all
existing hooks before registering anything, so at the moment the exception
escapes the prior swap hook "ctrl+q" is gone and no hook at all is
registered — the hotkey step is not all-or-nothing. -/
theorem invalid_binding_unregisters_prior :
    priorBindingsState.swapHook = some "ctrl+q" ∧
    update_shortcuts keyboardComboValid priorBindingsState =
      Except.error { priorBindingsState with
        swapHook := none
        swapModifier := "ctrl"
        swapKey := "" } :=
  ⟨rfl, rfl⟩

/-- C7 amended: applying a binding whose swap combination fails to register
(e.g. a syntactically invalid one such as "ctrl+") raises an uncaught error;
at that point the previously active hooks have already been unregistered, so
the error state has no swap hook, no type hook and no release hook — prior
bindings are lost rather than left registered. -/
theorem invalid_binding_error_state (valid : String → Bool) (st : AppState)
    (hne : st.swapHotkey ≠ "") (hnone : pyLower st.swapHotkey ≠ "none")
    (hinvalid : valid (normalizeCombo st.swapHotkey) = false) :
    ∃ errSt, update_shortcuts valid st = Except.error errSt ∧
      errSt.swapHook = none ∧ errSt.typeHook = none ∧
      errSt.ctrlReleaseHook = false := by
  unfold update_shortcuts
  dsimp only
  rw [if_pos (And.intro hne hnone)]
  by_cases hp : 2 ≤ (pySplitPlus (normalizeCombo st.swapHotkey)).length
  · rw [if_pos hp]
    simp only [hinvalid]
    exact ⟨_, rfl, rfl, rfl, rfl⟩
  · rw [if_neg hp]
    simp only [hinvalid]
    exact ⟨_, rfl, rfl, rfl, rfl⟩

theorem invalid_binding_error_state_witness :
    (priorBindingsState.swapHotkey ≠ "" ∧
      pyLower priorBindingsState.swapHotkey ≠ "none" ∧
      keyboardComboValid (normalizeCombo priorBindingsState.swapHotkey) = false) ∧
    (∃ errSt, update_shortcuts keyboardComboValid priorBindingsState =
        Except.error errSt ∧
      errSt.swapHook = none ∧ errSt.typeHook = none ∧
      errSt.ctrlReleaseHook = false) :=
  ⟨⟨by decide, by decide, by decide⟩,
    invalid_binding_error_state keyboardComboValid priorBindingsState
      (by decide) (by decide) (by decide)⟩

/-- Neither the history list widget nor the configured capacity is touched by
`update_shortcuts`, on the success path or on the exception path. -/
theorem update_shortcuts_frame (valid : String → Bool) (st : AppState) :
    historyAfter (update_shortcuts valid st) = st.history ∧
    maxAfter (update_shortcuts valid st) = st.maxStackSize := by
  constructor
  · unfold update_shortcuts historyAfter
    dsimp only
    split_ifs <;> (try dsimp only) <;> (try split_ifs) <;> rfl
  · unfold update_shortcuts maxAfter
    dsimp only
    split_ifs <;> (try dsimp only) <;> (try split_ifs) <;> rfl

/-- Settings dialog result lowering the stack size to 1, with the default
hotkey texts. -/
def settingsDialogSmall : DialogResult :=
  { swapText := "Ctrl + Q"
    typeText := "None"
    startup := false
    notify := true
    stackSize := 1
    darkMode := false }

/-- C8 counterexample: with an in-memory history of length 2, applying
settings with capacity 1 updates the configured capacity to 1 but leaves the
in-memory buffer at length 2 — no entry is evicted when the call returns, so
the claimed immediate eviction to length M does not happen. -/
theorem set_capacity_no_immediate_eviction :
    closedState.history.length = 2 ∧ settingsDialogSmall.stackSize = 1 ∧
    maxAfter (open_settings_apply keyboardComboValid settingsDialogSmall
      closedState) = 1 ∧
    (historyAfter (open_settings_apply keyboardComboValid settingsDialogSmall
      closedState)).length = 2 :=
  ⟨rfl, rfl, rfl, rfl⟩

/-- C8 amended: applying settings with a new capacity `M` (with
`1 ≤ M < N`, `N` the current in-memory length) only updates the configured
capacity; the in-memory buffer is left untouched at length `N`. Eviction is
deferred: the next history save persists only the first `M` entries
(`save_history` truncates to the configured capacity). -/
theorem set_capacity_deferred (valid : String → Bool) (d : DialogResult)
    (st : AppState) (_h1 : 1 ≤ d.stackSize)
    (h2 : d.stackSize < st.history.length) :
    historyAfter (open_settings_apply valid d st) = st.history ∧
    maxAfter (open_settings_apply valid d st) = d.stackSize ∧
    (save_history d.stackSize st.history).length = d.stackSize := by
  refine ⟨?_, ?_, ?_⟩
  · unfold open_settings_apply
    dsimp only
    exact (update_shortcuts_frame valid _).1
  · unfold open_settings_apply
    dsimp only
    exact (update_shortcuts_frame valid _).2
  · unfold save_history
    rw [List.length_take]
    omega

theorem set_capacity_deferred_witness :
    (1 ≤ settingsDialogSmall.stackSize ∧
      settingsDialogSmall.stackSize < closedState.history.length) ∧
    (historyAfter (open_settings_apply keyboardComboValid settingsDialogSmall
        closedState) = closedState.history ∧
      maxAfter (open_settings_apply keyboardComboValid settingsDialogSmall
        closedState) = settingsDialogSmall.stackSize ∧
      (save_history settingsDialogSmall.stackSize closedState.history).length =
        settingsDialogSmall.stackSize) :=
  ⟨⟨by decide, by decide⟩,
    set_capacity_deferred keyboardComboValid settingsDialogSmall closedState
      (by decide) (by decide)⟩

theorem close_session_watch_behavior_witness :
    (baseState.overlay = some { items := [entryA, entryB], currentRow := 0 } ∧
      Overlay.currentItem { items := [entryA, entryB], currentRow := 0 } =
        some entryA ∧ closedState.overlay = none) ∧
    (((paste_and_close_overlay baseState).ctrlReleaseHook = false ∧
      (paste_and_close_overlay baseState).overlay = none) ∧
    ((overlay_escape baseState).ctrlReleaseHook = baseState.ctrlReleaseHook ∧
      (overlay_escape baseState).overlay = none) ∧
    paste_and_close_overlay closedState = closedState) :=
  ⟨⟨rfl, by decide, rfl⟩,
    close_session_watch_behavior baseState
      { items := [entryA, entryB], currentRow := 0 } entryA rfl (by decide)
      baseState { items := [entryA, entryB], currentRow := 0 } rfl
      closedState rfl⟩
